import Mathlib

/-!
Verification development for the core of the restate worker:
the partition-processor apply/record pipeline (`crates/worker/src/partition/mod.rs`),
the invocation task (`src/invoker/src/invocation_task.rs`), and the ingress
invocation-storage reader (`crates/worker/src/ingress_integration.rs`).

The Rust source is shallowly embedded: pure functions become Lean functions,
the stateful apply pipeline becomes explicit state passing over a transaction
value, panics become distinguished result variants, and the async select
loops of the invocation task are run over explicit finite event traces
(`none` modelling an execution that never completes).
-/

namespace Worker

/-- Producer identifier for the deduplication table.  `selfProducer` models
`ProducerId::self_producer()`; other producers are numbered. -/
inductive ProducerId
  | selfProducer
  | other (id : Nat)
deriving DecidableEq

/-- Modelled from the spec: `EpochSequenceNumber` is a pair
(leader_epoch, counter) compared lexicographically; its Rust definition lives
in `restate_storage_api::deduplication_table`, outside the given sources. -/
structure EpochSequenceNumber where
  leader_epoch : Nat
  sequence_number : Nat
deriving DecidableEq

/-- Modelled from the spec: `EpochSequenceNumber::new(leader_epoch)` starts a
fresh epoch with the counter at zero. -/
def EpochSequenceNumber.new (leader_epoch : Nat) : EpochSequenceNumber :=
  { leader_epoch := leader_epoch, sequence_number := 0 }

/-- Lexicographic order on epoch sequence numbers (derived `Ord` in Rust,
field order: leader_epoch then sequence_number).  `a.ge b` means `a >= b`. -/
def EpochSequenceNumber.ge (a b : EpochSequenceNumber) : Bool :=
  decide (b.leader_epoch < a.leader_epoch ∨
    (a.leader_epoch = b.leader_epoch ∧ b.sequence_number ≤ a.sequence_number))

/-- `DedupSequenceNumber`: tagged variant, either an epoch sequence number or
a plain sequence number. -/
inductive DedupSequenceNumber
  | Esn (esn : EpochSequenceNumber)
  | Sn (sn : Nat)
deriving DecidableEq

/-- `DedupInformation`: the producer and sequence number carried by an
envelope header. -/
structure DedupInformation where
  producer_id : ProducerId
  sequence_number : DedupSequenceNumber
deriving DecidableEq

structure AnnounceLeader where
  leader_epoch : Nat
  node_id : Nat
deriving DecidableEq

/-- Envelope destination (`restate_wal_protocol::Destination`).  Only the
`Processor` variant is addressed to partitions; `otherDest` stands for every
other variant matched by the wildcard arm in `is_targeted_to_me`. -/
inductive Destination
  | Processor (partition_key : Nat) (dedup : Option DedupInformation)
  | otherDest
deriving DecidableEq

structure Header where
  dest : Destination
deriving DecidableEq

/-- Envelope command: the `AnnounceLeader` control command is treated
specially by `apply_record`; every other command is dispatched to the state
machine and is abstracted by a numeric payload. -/
inductive Command
  | AnnounceLeader (al : AnnounceLeader)
  | otherCommand (payload : Nat)
deriving DecidableEq

structure Envelope where
  header : Header
  command : Command
deriving DecidableEq

/-- Actions collected for actuators are opaque here. -/
abbrev Action := Nat

/-- Storage mutations performed by the state machine (tables other than the
dedup table) are opaque here. -/
abbrev SMWrite := Nat

/-- The write set of one storage transaction: the applied LSN, the dedup-table
writes (most recent first) and the opaque state-machine writes. -/
structure TxnState where
  applied_lsn : Option Nat
  dedup_writes : List (ProducerId × DedupSequenceNumber)
  sm_writes : List SMWrite
deriving DecidableEq

/-- The persistent dedup table (association list, most recent first). -/
structure Storage where
  dedup_map : List (ProducerId × DedupSequenceNumber)
deriving DecidableEq

def Storage.get_dedup (s : Storage) (p : ProducerId) : Option DedupSequenceNumber :=
  (s.dedup_map.find? (fun q => decide (q.1 = p))).map Prod.snd

/-- `get_dedup_sequence_number` as seen through a transaction: reads see the
prior writes of the transaction, falling back to storage (spec 4.1). -/
def get_dedup_sequence_number (storage : Storage) (t : TxnState) (p : ProducerId) :
    Option DedupSequenceNumber :=
  match t.dedup_writes.find? (fun q => decide (q.1 = p)) with
  | some q => some q.2
  | none => storage.get_dedup p

/-- The transaction opened by `apply_record` right after
`transaction.store_applied_lsn(lsn)`. -/
def initial_txn (lsn : Nat) : TxnState :=
  { applied_lsn := some lsn, dedup_writes := [], sm_writes := [] }

/-- `is_outdated_or_duplicate`, given the resolved last dedup sequence number
for the producer.  `none` models the panic on a cross-kind comparison. -/
def is_outdated_or_duplicate (last_dsn : Option DedupSequenceNumber)
    (incoming : DedupSequenceNumber) : Option Bool :=
  match last_dsn with
  | none => some false
  | some last =>
    match last, incoming with
    | .Esn last_esn, .Esn esn => some (last_esn.ge esn)
    | .Sn last_sn, .Sn sn => some (decide (sn ≤ last_sn))
    | _, _ => none

/-- Whether two dedup sequence numbers are of the same kind (both ESN or both
SN). -/
def same_kind : DedupSequenceNumber → DedupSequenceNumber → Bool
  | .Esn _, .Esn _ => true
  | .Sn _, .Sn _ => true
  | _, _ => false

/-- Same-kind comparison `a ≤ b` on dedup sequence numbers (false cross-kind). -/
def dsn_le : DedupSequenceNumber → DedupSequenceNumber → Bool
  | .Esn a, .Esn b => b.ge a
  | .Sn a, .Sn b => decide (a ≤ b)
  | _, _ => false

inductive ReplayStatus
  | Starting
  | Active
  | CatchingUp
deriving DecidableEq

inductive RunMode
  | Leader
  | Follower
deriving DecidableEq

/-- The status fields of `PartitionProcessorStatus` touched by the record
path of the main loop. -/
structure PartitionProcessorStatus where
  replay_status : ReplayStatus
  target_tail_lsn : Option Nat
  last_applied_log_lsn : Option Nat
  last_record_applied_at : Option Nat
  num_skipped_records : Nat
  effective_mode : Option RunMode
  last_observed_leader_epoch : Option Nat
  last_observed_leader_node : Option Nat
deriving DecidableEq

/-- The status update done at the top of `apply_record`: record the applied
LSN and time, and finish catching up once the target tail is reached. -/
def update_status_on_apply (status : PartitionProcessorStatus) (lsn now : Nat) :
    PartitionProcessorStatus :=
  let s := { status with last_applied_log_lsn := some lsn, last_record_applied_at := some now }
  match s.replay_status with
  | .CatchingUp =>
    match s.target_tail_lsn with
    | some v => if v ≤ lsn then { s with replay_status := .Active } else s
    | none => s
  | _ => s

/-- `is_targeted_to_me`: `some dedup` when the header addresses a processor
whose partition key falls in this partition's inclusive key range. -/
def is_targeted_to_me (range : Nat × Nat) (header : Header) :
    Option (Option DedupInformation) :=
  match header.dest with
  | .Processor partition_key dedup =>
    if range.1 ≤ partition_key ∧ partition_key ≤ range.2 then some dedup else none
  | .otherDest => none

/-- Result of the dedup step of `apply_record` (lines 371-385).  `panicked`
is the cross-kind panic inside `is_outdated_or_duplicate`; `pass` carries the
transaction, extended with the new dedup sequence number when the record was
not a duplicate. -/
inductive DedupStepResult
  | panicked
  | duplicate
  | pass (txn : TxnState)
deriving DecidableEq

def dedup_step (storage : Storage) (txn0 : TxnState) :
    Option DedupInformation → DedupStepResult
  | none => .pass txn0
  | some di =>
    match is_outdated_or_duplicate
        (get_dedup_sequence_number storage txn0 di.producer_id) di.sequence_number with
    | none => .panicked
    | some true => .duplicate
    | some false =>
      .pass { txn0 with dedup_writes := (di.producer_id, di.sequence_number) :: txn0.dedup_writes }

/-- The self-producer epoch as read in the `AnnounceLeader` branch:
`none` models the `let_assert` panic when the stored value is of SN kind,
`some none` means no self-ESN stored, `some (some e)` its epoch. -/
def stored_self_epoch (storage : Storage) (txn : TxnState) : Option (Option Nat) :=
  match get_dedup_sequence_number storage txn .selfProducer with
  | none => some none
  | some (.Esn esn) => some (some esn.leader_epoch)
  | some (.Sn _) => none

/-- The condition under which `apply_record` returns the announcement:
`last_known_esn.map(|e| e.leader_epoch < announced).unwrap_or(true)`. -/
def announce_epoch_is_newer (last_known : Option Nat) (announced : Nat) : Bool :=
  match last_known with
  | none => true
  | some e0 => decide (e0 < announced)

/-- Modelled from the spec: the state machine (module
`partition::state_machine`, outside the given sources) deterministically maps
a command to opaque storage mutations and to actions; per spec 4.2 a
conforming instance records actions only when `is_leader` is true, which the
theorems take as a hypothesis where needed. -/
abbrev StateMachineModel := Command → Bool → List SMWrite × List Action

inductive ApplyOutcome
  | panicked
  | ok (leadership_change : Option AnnounceLeader)
deriving DecidableEq

/-- Result of `apply_record`: the transaction write set, the updated status,
the outcome (panic or an optional leadership change), whether and how the
state machine was invoked, and the actions collected. -/
structure ApplyResult where
  txn : TxnState
  status : PartitionProcessorStatus
  outcome : ApplyOutcome
  sm_call : Option (Command × Bool)
  actions : List Action
deriving DecidableEq

/-- `PartitionProcessor::apply_record` (lines 346-434). -/
def apply_record (sm : StateMachineModel) (range : Nat × Nat) (is_leader : Bool)
    (storage : Storage) (lsn : Nat) (envelope : Envelope)
    (status : PartitionProcessorStatus) (now : Nat) : ApplyResult :=
  let txn0 := initial_txn lsn
  let status1 := update_status_on_apply status lsn now
  match is_targeted_to_me range envelope.header with
  | none =>
    { txn := txn0
      status := { status1 with num_skipped_records := status1.num_skipped_records + 1 }
      outcome := .ok none, sm_call := none, actions := [] }
  | some dedup_opt =>
    match dedup_step storage txn0 dedup_opt with
    | .panicked =>
      { txn := txn0, status := status1, outcome := .panicked, sm_call := none, actions := [] }
    | .duplicate =>
      { txn := txn0, status := status1, outcome := .ok none, sm_call := none, actions := [] }
    | .pass txn1 =>
      match envelope.command with
      | .AnnounceLeader al =>
        match stored_self_epoch storage txn1 with
        | none =>
          { txn := txn1, status := status1, outcome := .panicked, sm_call := none, actions := [] }
        | some last_known =>
          if announce_epoch_is_newer last_known al.leader_epoch then
            { txn := txn1, status := status1, outcome := .ok (some al)
              sm_call := none, actions := [] }
          else
            { txn := txn1, status := status1, outcome := .ok none
              sm_call := none, actions := [] }
      | c =>
        { txn := { txn1 with sm_writes := txn1.sm_writes ++ (sm c is_leader).1 }
          status := status1, outcome := .ok none
          sm_call := some (c, is_leader), actions := (sm c is_leader).2 }

/-- Observable events of the record branch of the main loop, in order. -/
inductive RunEvent
  | commit (txn : TxnState)
  | become_leader (esn : EpochSequenceNumber)
  | become_follower
  | handle_actions (actions : List Action)
deriving DecidableEq

/-- Modelled from the spec: `LeadershipState::handle_actions` (module
`partition::leadership`, outside the given sources) dispatches the batch to
actuators in leader state and rejects dispatch in follower state. -/
def leadership_dispatch (is_leader : Bool) (actions : List Action) : List Action :=
  if is_leader then actions else []

/-- The transaction as committed on a leadership change: the self-producer
ESN for the new epoch is stored on top of the writes so far (run, line 297). -/
def txn_with_self_esn (txn : TxnState) (epoch : Nat) : TxnState :=
  { txn with dedup_writes :=
      (ProducerId.selfProducer, DedupSequenceNumber.Esn (EpochSequenceNumber.new epoch))
        :: txn.dedup_writes }

/-- Result of processing one record in the main loop. -/
structure RunResult where
  status : PartitionProcessorStatus
  is_leader : Bool
  events : List RunEvent
  dispatched : List Action
  panicked : Bool
  sm_call : Option (Command × Bool)
deriving DecidableEq

/-- The record branch of `PartitionProcessor::run` (lines 270-331):
`apply_record`, then either the leadership-change path (store self-ESN,
commit, clear actions, become leader or follower) or the ordinary path
(commit, then hand the drained action collector to
`leadership_state.handle_actions`). -/
def process_record (sm : StateMachineModel) (range : Nat × Nat) (my_node_id : Nat)
    (is_leader0 : Bool) (storage : Storage) (lsn : Nat) (envelope : Envelope)
    (status : PartitionProcessorStatus) (now : Nat) : RunResult :=
  let r := apply_record sm range is_leader0 storage lsn envelope status now
  match r.outcome with
  | .panicked =>
    { status := r.status, is_leader := is_leader0, events := []
      dispatched := [], panicked := true, sm_call := r.sm_call }
  | .ok (some al) =>
    let status2 := { r.status with
      last_observed_leader_epoch := some al.leader_epoch
      last_observed_leader_node := some al.node_id }
    let txn2 := txn_with_self_esn r.txn al.leader_epoch
    if al.node_id = my_node_id then
      { status := { status2 with effective_mode := some .Leader }
        is_leader := true
        events := [.commit txn2, .become_leader (EpochSequenceNumber.new al.leader_epoch)]
        dispatched := [], panicked := false, sm_call := r.sm_call }
    else
      { status := { status2 with effective_mode := some .Follower }
        is_leader := false
        events := [.commit txn2, .become_follower]
        dispatched := [], panicked := false, sm_call := r.sm_call }
  | .ok none =>
    { status := r.status, is_leader := is_leader0
      events := [.commit r.txn, .handle_actions r.actions]
      dispatched := leadership_dispatch is_leader0 r.actions
      panicked := false, sm_call := r.sm_call }

end Worker

namespace Invoker

/-- Protocol message kinds, as in `MessageType`. -/
inductive MessageType
  | Start
  | Completion
  | Suspension
  | Entry
deriving DecidableEq

/-- h2 stream reset reasons relevant to the task; other codes are numbered. -/
inductive H2Reason
  | NO_ERROR
  | INTERNAL_ERROR
  | otherReason (code : Nat)
deriving DecidableEq

/-- A hyper transport error, abstracted to the result of searching its cause
chain for an `h2::Error` and taking that error's reason (`find_source`
composed with `h2::Error::reason`). -/
structure HyperError where
  source_h2_reason : Option H2Reason
deriving DecidableEq

/-- `h2_reason`: the reason found in the cause stack, defaulting to
`INTERNAL_ERROR`. -/
def h2_reason (err : HyperError) : H2Reason :=
  err.source_h2_reason.getD .INTERNAL_ERROR

/-- `InvocationTaskError` (the `UnexpectedJoinError` and `Other` variants are
kept; `Encoding` and `JournalReader` drop their payloads). -/
inductive InvocationTaskError
  | UnexpectedResponse (status : Nat)
  | UnexpectedContentType (content_type : Option Nat)
  | UnexpectedMessage (mt : MessageType)
  | Encoding
  | JournalReader
  | Network (e : HyperError)
  | UnexpectedJoinError
  | Other (payload : Nat)
deriving DecidableEq

/-- Decoded protocol messages; a raw journal entry is abstracted to a number. -/
inductive ProtocolMessage
  | Start
  | Completion
  | Suspension (entry_indexes : List Nat)
  | UnparsedEntry (raw_entry : Nat)
deriving DecidableEq

/-- `TerminalLoopState`: the short-circuiting result of the task's loops. -/
inductive TerminalLoopState (T : Type)
  | Continue (v : T)
  | Closed
  | Suspended (entry_indexes : List Nat)
  | Failed (e : InvocationTaskError)
deriving DecidableEq

/-- `From<hyper::Error> for TerminalLoopState` (lines 140-148): a transport
error whose underlying h2 reason is `NO_ERROR` is a graceful close. -/
def terminal_from_hyper {T : Type} (err : HyperError) : TerminalLoopState T :=
  if h2_reason err = .NO_ERROR then .Closed else .Failed (.Network err)

/-- `InvocationTaskOutputInner`: what the task sends to the invoker channel. -/
inductive InvocationTaskOutputInner
  | NewEntry (entry_index : Nat) (raw_entry : Nat)
  | Closed
  | Suspended (entry_indexes : List Nat)
  | Failed (e : InvocationTaskError)
deriving DecidableEq

/-- Terminal outputs are everything except `NewEntry`. -/
def InvocationTaskOutputInner.is_terminal : InvocationTaskOutputInner → Bool
  | .NewEntry _ _ => false
  | _ => true

/-- Result of one of the task's loops: the loop state, the value of
`next_journal_index` afterwards, and the outputs sent to the invoker while
the loop ran. -/
structure LoopResult where
  state : TerminalLoopState Unit
  idx : Nat
  outputs : List InvocationTaskOutputInner
deriving DecidableEq

/-- `handle_message` (lines 409-438), at the given `next_journal_index`. -/
def handle_message (idx : Nat) : ProtocolMessage → LoopResult
  | .Start => ⟨.Failed (.UnexpectedMessage .Start), idx, []⟩
  | .Completion => ⟨.Failed (.UnexpectedMessage .Completion), idx, []⟩
  | .Suspension es => ⟨.Suspended es, idx, []⟩
  | .UnparsedEntry raw => ⟨.Continue (), idx + 1, [.NewEntry idx raw]⟩

/-- One observable item of the response body stream: a decoded frame, a
decoder error, or a transport error (the frame decoder itself lives in
`super::message`, outside the given sources, so the body is modelled at the
granularity of decoded frames). -/
inductive BodyEvent
  | msg (m : ProtocolMessage)
  | decode_error
  | hyper_error (e : HyperError)
deriving DecidableEq

/-- `response_stream_loop` (lines 348-357) over an explicit, finite body
trace: drain the body, handling each decoded frame; end of body yields
`Closed`. -/
def response_stream_loop (idx : Nat) : List BodyEvent → LoopResult
  | [] => ⟨.Closed, idx, []⟩
  | .msg m :: rest =>
    let h := handle_message idx m
    match h.state with
    | .Continue _ =>
      let r := response_stream_loop h.idx rest
      ⟨r.state, r.idx, h.outputs ++ r.outputs⟩
    | _ => h
  | .decode_error :: _ => ⟨.Failed .Encoding, idx, []⟩
  | .hyper_error e :: _ => ⟨terminal_from_hyper e, idx, []⟩

/-- Outcome of `hyper::body::Sender::send_data`: `is_closed` marks the
channel-closed error that `write` ignores. -/
structure SendError where
  is_closed : Bool
  err : HyperError
deriving DecidableEq

/-- `InvocationTask::write` (lines 382-397), given the send outcome: a send
failure is an error only when the channel was not simply closed. -/
def write (send_result : Option SendError) : Except InvocationTaskError Unit :=
  match send_result with
  | none => .ok ()
  | some se => if se.is_closed then .ok () else .error (.Network se.err)

/-- Sequential replay of the journal entries onto the request body, counting
`next_journal_index` up by one per entry (the journal-stream branch of
`wait_response_and_replay_end_loop`); `send_results i` is the send outcome of
the write at index `i`. -/
def write_journal_entries (send_results : Nat → Option SendError) (idx : Nat) :
    List Nat → Except InvocationTaskError Nat
  | [] => .ok idx
  | _ :: rest =>
    match write (send_results idx) with
    | .ok _ => write_journal_entries send_results (idx + 1) rest
    | .error e => .error e

/-- How the request future resolves: a tokio join error, a hyper error, or a
response head with its status code and Content-Type (the type is abstracted
to a number, `0` standing for `application/restate`). -/
inductive ResponseHead
  | join_error
  | hyper_error (e : HyperError)
  | response (status : Nat) (content_type : Option Nat)
deriving DecidableEq

/-- The Content-Type token standing for `application/restate`. -/
def APPLICATION_RESTATE : Nat := 0

/-- `validate_response` (lines 522-541): require a 2xx status and the
`application/restate` content type. -/
def validate_response (status : Nat) (content_type : Option Nat) :
    Except InvocationTaskError Unit :=
  if ¬ (200 ≤ status ∧ status < 300) then .error (.UnexpectedResponse status)
  else
    match content_type with
    | some ct =>
      if ct ≠ APPLICATION_RESTATE then .error (.UnexpectedContentType (some ct)) else .ok ()
    | none => .error (.UnexpectedContentType none)

/-- Handling of the resolved request future inside the replay loop
(lines 287-298): join errors and transport errors short-circuit, otherwise
the response head is validated. -/
def handle_response_head : ResponseHead → TerminalLoopState Unit
  | .join_error => .Failed .UnexpectedJoinError
  | .hyper_error e => terminal_from_hyper e
  | .response status ct =>
    match validate_response status ct with
    | .ok _ => .Continue ()
    | .error e => .Failed e

/-- `wait_response_and_replay_end_loop` (lines 265-309) over an explicit
schedule: the response future resolves after `response_after` journal entries
have been written (`none` models a request future that never resolves, in
which case the loop blocks after draining the stream and the whole execution
never completes — overall result `none`).  On `Continue` the loop returns
the final `next_journal_index`. -/
def wait_response_and_replay_end_loop (send_results : Nat → Option SendError)
    (response_after : Nat) (response_head : Option ResponseHead)
    (idx : Nat) (journal_entries : List Nat) : Option (TerminalLoopState Nat) :=
  match response_head with
  | none =>
    match write_journal_entries send_results idx journal_entries with
    | .ok _ => none
    | .error e => some (.Failed e)
  | some head =>
    match write_journal_entries send_results idx (journal_entries.take response_after) with
    | .error e => some (.Failed e)
    | .ok idx1 =>
      match handle_response_head head with
      | .Continue _ =>
        match write_journal_entries send_results idx1 (journal_entries.drop response_after) with
        | .error e => some (.Failed e)
        | .ok idx2 => some (.Continue idx2)
      | .Closed => some .Closed
      | .Suspended es => some (.Suspended es)
      | .Failed e => some (.Failed e)

/-- One observable event of `bidi_stream_loop`'s select: a completion from
the invoker together with its send outcome, the completion channel closing,
a body item, or the end of the body. -/
inductive BidiEvent
  | completion (send_result : Option SendError)
  | completions_closed
  | body (e : BodyEvent)
  | body_end
deriving DecidableEq

/-- `bidi_stream_loop` (lines 312-346) over an explicit, finite event trace;
`none` models a select that blocks forever (trace exhausted without a
terminal event). -/
def bidi_stream_loop (idx : Nat) : List BidiEvent → Option LoopResult
  | [] => none
  | .completion sr :: rest =>
    match write sr with
    | .ok _ => bidi_stream_loop idx rest
    | .error e => some ⟨.Failed e, idx, []⟩
  | .completions_closed :: _ => some ⟨.Continue (), idx, []⟩
  | .body be :: rest =>
    match be with
    | .msg m =>
      let h := handle_message idx m
      match h.state with
      | .Continue _ =>
        match bidi_stream_loop h.idx rest with
        | none => none
        | some r => some ⟨r.state, r.idx, h.outputs ++ r.outputs⟩
      | _ => some h
    | .decode_error => some ⟨.Failed .Encoding, idx, []⟩
    | .hyper_error e => some ⟨terminal_from_hyper e, idx, []⟩
  | .body_end :: _ => some ⟨.Closed, idx, []⟩

structure JournalMetadata where
  journal_size : Nat
deriving DecidableEq

/-- `InvokeInputJournal`: either no cached journal (so `read_journal` runs,
with the given result) or a cached journal. -/
inductive InvokeInputJournal
  | NoCachedJournal (read_result : Except Nat (JournalMetadata × List Nat))
  | CachedJournal (meta : JournalMetadata) (entries : List Nat)

/-- All inputs of one execution of the invocation task, as explicit data:
the journal, the send outcomes of the start message and of each journal
entry, the schedule and result of the request future, whether a completion
receiver is held, and the event traces of the two consuming loops. -/
structure RunEnv where
  input_journal : InvokeInputJournal
  start_send : Option SendError
  entry_sends : Nat → Option SendError
  response_after : Nat
  response_head : Option ResponseHead
  has_invoker_rx : Bool
  bidi_events : List BidiEvent
  body_events : List BodyEvent

/-- `InvocationTask::run_internal` (lines 208-260): resolve the journal, send
the start message, run the replay loop, then the bidi loop (when a completion
receiver is held) and finally the response-stream loop. `none` models an
execution that never completes. -/
def run_internal (env : RunEnv) : Option LoopResult :=
  match (match env.input_journal with
         | .NoCachedJournal (.error _) => none
         | .NoCachedJournal (.ok p) => some p
         | .CachedJournal meta entries => some (meta, entries)) with
  | none => some ⟨.Failed .JournalReader, 0, []⟩
  | some (_, entries) =>
    match write env.start_send with
    | .error e => some ⟨.Failed e, 0, []⟩
    | .ok _ =>
      match wait_response_and_replay_end_loop env.entry_sends env.response_after
          env.response_head 0 entries with
      | none => none
      | some (.Failed e) => some ⟨.Failed e, 0, []⟩
      | some .Closed => some ⟨.Closed, 0, []⟩
      | some (.Suspended es) => some ⟨.Suspended es, 0, []⟩
      | some (.Continue idx1) =>
        if env.has_invoker_rx then
          match bidi_stream_loop idx1 env.bidi_events with
          | none => none
          | some r =>
            match r.state with
            | .Continue _ =>
              let r2 := response_stream_loop r.idx env.body_events
              some ⟨r2.state, r2.idx, r.outputs ++ r2.outputs⟩
            | _ => some r
        else
          some (response_stream_loop idx1 env.body_events)

/-- The single terminal output `run` sends for a loop state; `Continue` hits
the `unreachable!` panic and sends nothing. -/
def terminal_output : TerminalLoopState Unit → Option InvocationTaskOutputInner
  | .Continue _ => none
  | .Closed => some .Closed
  | .Suspended es => some (.Suspended es)
  | .Failed e => some (.Failed e)

/-- `InvocationTask::run` (lines 191-206): the full sequence of outputs the
task sends to the invoker channel over one completed execution. -/
def run (env : RunEnv) : Option (List InvocationTaskOutputInner) :=
  match run_internal env with
  | none => none
  | some r =>
    match terminal_output r.state with
    | some o => some (r.outputs ++ [o])
    | none => none

/-- The outputs the claim predicts for a run of consecutive entries starting
at index `idx`. -/
def new_entry_outputs (idx : Nat) : List Nat → List InvocationTaskOutputInner
  | [] => []
  | raw :: rest => .NewEntry idx raw :: new_entry_outputs (idx + 1) rest

end Invoker

namespace Ingress

/-- `InvocationQuery`: by invocation id, by workflow service id, or by
idempotency id (ids abstracted to numbers). -/
inductive InvocationQuery
  | Invocation (invocation_id : Nat)
  | Workflow (service_id : Nat)
  | IdempotencyId (idempotency_id : Nat)
deriving DecidableEq

inductive VirtualObjectStatus
  | Unlocked
  | Locked (invocation_id : Nat)
deriving DecidableEq

inductive WorkflowHandlerType
  | Workflow
  | Shared
deriving DecidableEq

/-- The invocation-target type returned by `invocation_target_ty`. -/
inductive InvocationTargetType
  | Service
  | VirtualObject
  | Workflow (handler_ty : WorkflowHandlerType)
deriving DecidableEq

structure InvocationTarget where
  name : Nat
  ty : InvocationTargetType
deriving DecidableEq

def InvocationTarget.invocation_target_ty (t : InvocationTarget) : InvocationTargetType :=
  t.ty

inductive ResponseResult
  | Success (body : Nat)
  | Failure (err : Nat)
deriving DecidableEq

/-- The in-flight metadata shared by the `Invoked` and `Suspended` statuses,
restricted to the fields `get_output` inspects. -/
structure InFlightInvocationMetadata where
  idempotency_key : Option Nat
  invocation_target : InvocationTarget
deriving DecidableEq

structure CompletedInvocation where
  idempotency_key : Option Nat
  invocation_target : InvocationTarget
  response_result : ResponseResult
deriving DecidableEq

/-- `InvocationStatus` with the lifecycle of spec section 3:
Free, Invoked, Suspended, Completed. -/
inductive InvocationStatus
  | Free
  | Invoked (m : InFlightInvocationMetadata)
  | Suspended (m : InFlightInvocationMetadata)
  | Completed (c : CompletedInvocation)
deriving DecidableEq

def InvocationStatus.idempotency_key : InvocationStatus → Option Nat
  | .Free => none
  | .Invoked m => m.idempotency_key
  | .Suspended m => m.idempotency_key
  | .Completed c => c.idempotency_key

def InvocationStatus.invocation_target : InvocationStatus → Option InvocationTarget
  | .Free => none
  | .Invoked m => some m.invocation_target
  | .Suspended m => some m.invocation_target
  | .Completed c => some c.invocation_target

inductive IngressResponseResult
  | Success (target : InvocationTarget) (body : Nat)
  | Failure (err : Nat)
deriving DecidableEq

structure InvocationResponse where
  request_id : Nat
  response : IngressResponseResult
  invocation_id : Option Nat
deriving DecidableEq

inductive GetOutputResult
  | NotFound
  | NotSupported
  | Ready (response : InvocationResponse)
  | NotReady
deriving DecidableEq

/-- The partition-store tables `get_output` reads, as lookup functions. -/
structure PartitionStorageView where
  virtual_object_status : Nat → VirtualObjectStatus
  idempotency_metadata : Nat → Option Nat
  invocation_status : Nat → InvocationStatus

/-- The status match of `get_output` (lines 90-115), in the source's arm
order: `Free`, then the guarded `NotSupported` arm, then `Completed`, then
the wildcard. -/
def get_output_status_result (invocation_id : Nat) (is : InvocationStatus) :
    GetOutputResult :=
  match is with
  | .Free => .NotFound
  | is =>
    if is.idempotency_key = none ∧
        is.invocation_target.map InvocationTarget.invocation_target_ty ≠
          some (.Workflow .Workflow) then
      .NotSupported
    else
      match is with
      | .Completed completed =>
        .Ready
          { request_id := 0
            response :=
              match completed.response_result with
              | .Success res => .Success completed.invocation_target res
              | .Failure err => .Failure err
            invocation_id := some invocation_id }
      | _ => .NotReady

/-- `InvocationStorageReaderImpl::get_output` (lines 43-116), after the
partition store has been resolved.  `det_id` stands for
`InvocationQuery::to_invocation_id`, the query's deterministic invocation id
(its Rust definition lives in `restate_types`, outside the given sources). -/
def get_output (det_id : InvocationQuery → Nat) (store : PartitionStorageView)
    (query : InvocationQuery) : GetOutputResult :=
  let invocation_id :=
    match query with
    | .Invocation invocation_id => invocation_id
    | .Workflow service_id =>
      match store.virtual_object_status service_id with
      | .Locked iid => iid
      | .Unlocked => det_id (.Workflow service_id)
    | .IdempotencyId idempotency_id =>
      match store.idempotency_metadata idempotency_id with
      | some iid => iid
      | none => det_id (.IdempotencyId idempotency_id)
  get_output_status_result invocation_id (store.invocation_status invocation_id)

/-- The status mapping as the claim words it, as an ordered chain of cases:
Free is NotFound; an absent idempotency key together with a target type
other than Workflow(Workflow) is NotSupported; Completed is Ready carrying
the completed response; any other status is NotReady. -/
def claim_status_result (invocation_id : Nat) (is : InvocationStatus) :
    GetOutputResult :=
  if is = .Free then .NotFound
  else if is.idempotency_key = none ∧
      is.invocation_target.map InvocationTarget.invocation_target_ty ≠
        some (.Workflow .Workflow) then
    .NotSupported
  else
    match is with
    | .Completed completed =>
      .Ready
        { request_id := 0
          response :=
            match completed.response_result with
            | .Success res => .Success completed.invocation_target res
            | .Failure err => .Failure err
          invocation_id := some invocation_id }
    | _ => .NotReady

/-- The claim's reading of `get_output`, written from its words: resolve the
invocation id (Workflow and IdempotencyId queries that miss their lookup
table fall back to the query's deterministic id), then decide by the
resolved invocation's status via `claim_status_result`. -/
def get_output_claim (det_id : InvocationQuery → Nat) (store : PartitionStorageView)
    (query : InvocationQuery) : GetOutputResult :=
  let invocation_id :=
    match query with
    | .Invocation invocation_id => invocation_id
    | .Workflow service_id =>
      match store.virtual_object_status service_id with
      | .Locked iid => iid
      | .Unlocked => det_id (.Workflow service_id)
    | .IdempotencyId idempotency_id =>
      match store.idempotency_metadata idempotency_id with
      | some iid => iid
      | none => det_id (.IdempotencyId idempotency_id)
  claim_status_result invocation_id (store.invocation_status invocation_id)

end Ingress

section SampleInputs

/-- A state machine that writes nothing and collects no actions. -/
def sm_noop : Worker.StateMachineModel := fun _ _ => ([], [])

/-- A state machine that collects one action, but only as leader. -/
def sm_leader_only : Worker.StateMachineModel := fun _ is_leader =>
  ([], if is_leader then [1] else [])

def storage_empty : Worker.Storage := ⟨[]⟩

/-- Storage whose self-producer ESN is at epoch 1. -/
def storage_self1 : Worker.Storage :=
  ⟨[(.selfProducer, .Esn ⟨1, 0⟩)]⟩

/-- Storage with a plain sequence number 5 recorded for producer 0. -/
def storage_sn5 : Worker.Storage := ⟨[(.other 0, .Sn 5)]⟩

/-- Storage with a plain sequence number 4 recorded for producer 0. -/
def storage_sn4 : Worker.Storage := ⟨[(.other 0, .Sn 4)]⟩

def sample_status : Worker.PartitionProcessorStatus :=
  ⟨.Active, none, none, none, 0, none, none, none⟩

/-- A non-control envelope addressed to partition key 3, no dedup info. -/
def sample_other_env : Worker.Envelope := ⟨⟨.Processor 3 none⟩, .otherCommand 7⟩

/-- An envelope addressed outside the sample key range. -/
def sample_far_env : Worker.Envelope := ⟨⟨.Processor 99 none⟩, .otherCommand 7⟩

/-- An `AnnounceLeader(epoch 2, node 2)` envelope addressed to key 3. -/
def env_announce2 : Worker.Envelope := ⟨⟨.Processor 3 none⟩, .AnnounceLeader ⟨2, 2⟩⟩

/-- An `AnnounceLeader(epoch 1, node 2)` envelope addressed to key 3. -/
def env_announce_old : Worker.Envelope := ⟨⟨.Processor 3 none⟩, .AnnounceLeader ⟨1, 2⟩⟩

/-- A dedup-equipped envelope from producer 0 with sequence number 5. -/
def env_dedup5 : Worker.Envelope :=
  ⟨⟨.Processor 3 (some ⟨.other 0, .Sn 5⟩)⟩, .otherCommand 7⟩

/-- An invocation-task environment: one cached entry, a clean 200 response,
no completion receiver, one entry frame in the response body. -/
def env_c3 : Invoker.RunEnv :=
  { input_journal := .CachedJournal ⟨1⟩ [11]
    start_send := none
    entry_sends := fun _ => none
    response_after := 1
    response_head := some (.response 200 (some 0))
    has_invoker_rx := false
    bidi_events := []
    body_events := [.msg (.UnparsedEntry 21)] }

end SampleInputs

namespace Worker

theorem get_dedup_initial (storage : Storage) (lsn : Nat) (p : ProducerId) :
    get_dedup_sequence_number storage (initial_txn lsn) p = storage.get_dedup p := rfl

theorem get_dedup_self_esn (storage : Storage) (txn : TxnState) (e : Nat) :
    get_dedup_sequence_number storage (txn_with_self_esn txn e) .selfProducer =
      some (.Esn (EpochSequenceNumber.new e)) := rfl

theorem update_status_fields (s : PartitionProcessorStatus) (lsn now : Nat) :
    (update_status_on_apply s lsn now).last_applied_log_lsn = some lsn ∧
    (update_status_on_apply s lsn now).last_record_applied_at = some now ∧
    (update_status_on_apply s lsn now).num_skipped_records = s.num_skipped_records ∧
    (update_status_on_apply s lsn now).effective_mode = s.effective_mode := by
  unfold update_status_on_apply
  refine ⟨?_, ?_, ?_, ?_⟩ <;> (dsimp only; (repeat' split) <;> rfl)

theorem leadership_dispatch_nil (is_leader : Bool) : leadership_dispatch is_leader [] = [] := by
  unfold leadership_dispatch
  split <;> rfl

theorem is_dup_of_same_kind_le (last dsn : DedupSequenceNumber)
    (hk : same_kind last dsn = true) (hle : dsn_le dsn last = true) :
    is_outdated_or_duplicate (some last) dsn = some true := by
  cases last <;> cases dsn <;> simp_all [same_kind, dsn_le, is_outdated_or_duplicate]

end Worker

/-- C8: a record whose header destination is not a Processor destination with
a partition key inside this partition's key range is only bookkeeping:
`apply_record` stores the applied LSN in the transaction, increments
`num_skipped_records`, updates the last-applied status fields, and returns
without writing the dedup map, without invoking the state machine, without
collecting actions and without a leadership change; the transaction carries
no other write. -/
theorem C8_not_targeted_record_only_bookkeeping
    (sm : Worker.StateMachineModel) (range : Nat × Nat) (is_leader : Bool)
    (storage : Worker.Storage) (lsn : Nat) (envelope : Worker.Envelope)
    (status : Worker.PartitionProcessorStatus) (now : Nat) (r : Worker.ApplyResult)
    (htme : Worker.is_targeted_to_me range envelope.header = none)
    (hr : Worker.apply_record sm range is_leader storage lsn envelope status now = r) :
    r.txn = Worker.initial_txn lsn ∧
    r.txn.applied_lsn = some lsn ∧
    r.txn.dedup_writes = [] ∧
    r.txn.sm_writes = [] ∧
    r.sm_call = none ∧
    r.actions = [] ∧
    r.outcome = .ok none ∧
    r.status.num_skipped_records = status.num_skipped_records + 1 ∧
    r.status.last_applied_log_lsn = some lsn ∧
    r.status.last_record_applied_at = some now := by
  subst hr
  have hu := Worker.update_status_fields status lsn now
  simp [Worker.apply_record, htme, Worker.initial_txn, hu.1, hu.2.1, hu.2.2.1]

/-- C8 witness: a record addressed to partition key 99 with key range 0..10
is skipped with only LSN and status bookkeeping. -/
theorem C8_witness :
    Worker.is_targeted_to_me (0, 10) sample_far_env.header = none ∧
    (Worker.apply_record sm_noop (0, 10) false storage_empty 5 sample_far_env
        sample_status 0).txn = Worker.initial_txn 5 ∧
    (Worker.apply_record sm_noop (0, 10) false storage_empty 5 sample_far_env
        sample_status 0).status.num_skipped_records = sample_status.num_skipped_records + 1 :=
  ⟨by decide, (C8_not_targeted_record_only_bookkeeping sm_noop (0, 10) false storage_empty 5
      sample_far_env sample_status 0 _ (by decide) rfl).1,
    (C8_not_targeted_record_only_bookkeeping sm_noop (0, 10) false storage_empty 5
      sample_far_env sample_status 0 _ (by decide) rfl).2.2.2.2.2.2.2.1⟩

/-- C9: when the stored dedup sequence number and the incoming one are of
different kinds, `is_outdated_or_duplicate` panics instead of returning a
result (modelled by `none`); when the kinds agree — the precondition that
each producer sticks to a single kind — the comparison always returns a
result, so the panic branch is unreachable. -/
theorem C9_cross_kind_dedup_panics (last dsn : Worker.DedupSequenceNumber) :
    (Worker.same_kind last dsn = false →
      Worker.is_outdated_or_duplicate (some last) dsn = none) ∧
    (Worker.same_kind last dsn = true →
      (Worker.is_outdated_or_duplicate (some last) dsn).isSome = true) := by
  cases last <;> cases dsn <;>
    simp [Worker.same_kind, Worker.is_outdated_or_duplicate]

/-- C9 witness: an SN stored against an incoming ESN panics; SN against SN
returns a result. -/
theorem C9_cross_kind_dedup_panics_witness :
    (Worker.same_kind (.Sn 0) (.Esn ⟨1, 0⟩) = false ∧
      Worker.is_outdated_or_duplicate (some (.Sn 0)) (.Esn ⟨1, 0⟩) = none) ∧
    (Worker.same_kind (.Sn 0) (.Sn 3) = true ∧
      (Worker.is_outdated_or_duplicate (some (.Sn 0)) (.Sn 3)).isSome = true) :=
  ⟨⟨by decide, (C9_cross_kind_dedup_panics (.Sn 0) (.Esn ⟨1, 0⟩)).1 (by decide)⟩,
   ⟨by decide, (C9_cross_kind_dedup_panics (.Sn 0) (.Sn 3)).2 (by decide)⟩⟩

/-- C2: for a record carrying dedup information `(producer, sn)`: when the
stored number for the producer exists, is of the same kind, and `sn` is at
most the stored number, `apply_record` treats the record as a duplicate —
the state machine is not invoked, the dedup map is not updated, no actions
are collected and there is no leadership change, the transaction holding
only the applied LSN; when the comparison says the record is fresh, the new
sequence number is stored in the transaction before any further processing. -/
theorem C2_duplicate_record_has_no_effect
    (sm : Worker.StateMachineModel) (range : Nat × Nat) (is_leader : Bool)
    (storage : Worker.Storage) (lsn : Nat) (envelope : Worker.Envelope)
    (status : Worker.PartitionProcessorStatus) (now : Nat)
    (di : Worker.DedupInformation) (r : Worker.ApplyResult)
    (htme : Worker.is_targeted_to_me range envelope.header = some (some di))
    (hr : Worker.apply_record sm range is_leader storage lsn envelope status now = r) :
    (∀ last, storage.get_dedup di.producer_id = some last →
      Worker.same_kind last di.sequence_number = true →
      Worker.dsn_le di.sequence_number last = true →
      r.sm_call = none ∧ r.txn = Worker.initial_txn lsn ∧
      r.txn.dedup_writes = [] ∧ r.actions = [] ∧ r.outcome = .ok none) ∧
    (Worker.is_outdated_or_duplicate (storage.get_dedup di.producer_id)
        di.sequence_number = some false →
      r.txn.dedup_writes = [(di.producer_id, di.sequence_number)]) := by
  subst hr
  constructor
  · intro last hlast hk hle
    have hdup := Worker.is_dup_of_same_kind_le last di.sequence_number hk hle
    simp only [Worker.apply_record, htme, Worker.dedup_step, Worker.get_dedup_initial,
      hlast, hdup]
    simp [Worker.initial_txn]
  · intro hnd
    simp only [Worker.apply_record, htme, Worker.dedup_step, Worker.get_dedup_initial, hnd]
    cases envelope.command with
    | AnnounceLeader al =>
      dsimp only
      (repeat' split) <;> rfl
    | otherCommand payload => rfl

/-- C2 witness: a resend of sequence number 5 from producer 0 is dropped as a
duplicate (stored number 5), and the same message over stored number 4 is
fresh, so its sequence number is written to the transaction. -/
theorem C2_duplicate_record_has_no_effect_witness :
    ((Worker.apply_record sm_noop (0, 10) false storage_sn5 20 env_dedup5
        sample_status 0).sm_call = none ∧
      (Worker.apply_record sm_noop (0, 10) false storage_sn5 20 env_dedup5
        sample_status 0).txn.dedup_writes = []) ∧
    (Worker.apply_record sm_noop (0, 10) false storage_sn4 21 env_dedup5
        sample_status 0).txn.dedup_writes = [(.other 0, .Sn 5)] :=
  ⟨⟨((C2_duplicate_record_has_no_effect sm_noop (0, 10) false storage_sn5 20 env_dedup5
        sample_status 0 ⟨.other 0, .Sn 5⟩ _ (by decide) rfl).1
      (.Sn 5) (by decide) (by decide) (by decide)).1,
    ((C2_duplicate_record_has_no_effect sm_noop (0, 10) false storage_sn5 20 env_dedup5
        sample_status 0 ⟨.other 0, .Sn 5⟩ _ (by decide) rfl).1
      (.Sn 5) (by decide) (by decide) (by decide)).2.2.1⟩,
   (C2_duplicate_record_has_no_effect sm_noop (0, 10) false storage_sn4 21 env_dedup5
        sample_status 0 ⟨.other 0, .Sn 5⟩ _ (by decide) rfl).2 (by decide)⟩

/-- C1: for an `AnnounceLeader(epoch, node)` record that reaches the
announce branch of `apply_record` (targeted to this partition, past the
dedup step), with the transaction-visible self-producer ESN read as
`last_known`: if the epoch is strictly greater than the stored epoch (or no
self-ESN is stored), the main loop stores `DedupSequenceNumber::Esn(new
epoch)` for the self producer, commits that transaction before the
leadership transition, discards all actions collected so far, and is
afterwards in leader mode exactly when `node` is this node (follower
otherwise); if the epoch is not greater, the announcement is dropped — no
transition, no dispatch, and the committed transaction is exactly the one
the dedup step produced, with no self-ESN update from the announcement. -/
theorem C1_announce_leader_epoch_fencing
    (sm : Worker.StateMachineModel) (range : Nat × Nat) (my_node_id : Nat)
    (is_leader0 : Bool) (storage : Worker.Storage) (lsn : Nat)
    (envelope : Worker.Envelope) (status : Worker.PartitionProcessorStatus) (now : Nat)
    (d : Option Worker.DedupInformation) (al : Worker.AnnounceLeader)
    (txn1 : Worker.TxnState) (last_known : Option Nat) (r : Worker.RunResult)
    (htme : Worker.is_targeted_to_me range envelope.header = some d)
    (hcmd : envelope.command = .AnnounceLeader al)
    (hstep : Worker.dedup_step storage (Worker.initial_txn lsn) d = .pass txn1)
    (hself : Worker.stored_self_epoch storage txn1 = some last_known)
    (hr : Worker.process_record sm range my_node_id is_leader0 storage lsn envelope
        status now = r) :
    (Worker.announce_epoch_is_newer last_known al.leader_epoch = true →
      r.events = [.commit (Worker.txn_with_self_esn txn1 al.leader_epoch),
        if al.node_id = my_node_id then
          Worker.RunEvent.become_leader (Worker.EpochSequenceNumber.new al.leader_epoch)
        else Worker.RunEvent.become_follower] ∧
      Worker.get_dedup_sequence_number storage
          (Worker.txn_with_self_esn txn1 al.leader_epoch) .selfProducer =
        some (.Esn (Worker.EpochSequenceNumber.new al.leader_epoch)) ∧
      r.dispatched = [] ∧
      (∀ acts, Worker.RunEvent.handle_actions acts ∉ r.events) ∧
      (r.is_leader = true ↔ al.node_id = my_node_id) ∧
      r.status.effective_mode =
        some (if al.node_id = my_node_id then Worker.RunMode.Leader
          else Worker.RunMode.Follower)) ∧
    (Worker.announce_epoch_is_newer last_known al.leader_epoch = false →
      r.events = [.commit txn1, .handle_actions []] ∧
      r.is_leader = is_leader0 ∧
      r.status.effective_mode = status.effective_mode ∧
      r.dispatched = []) := by
  subst hr
  have hu := Worker.update_status_fields status lsn now
  constructor
  · intro hnew
    simp only [Worker.process_record, Worker.apply_record, htme, hcmd, hstep, hself, hnew,
      if_true]
    by_cases hn : al.node_id = my_node_id <;>
      simp [hn, Worker.get_dedup_self_esn]
  · intro hold
    simp only [Worker.process_record, Worker.apply_record, htme, hcmd, hstep, hself, hold]
    simp [Worker.leadership_dispatch_nil, hu.2.2.2]

/-- C1 witness: `AnnounceLeader(epoch 2, node 2)` against a stored self-ESN
at epoch 1 on node 1 commits the new self-ESN and transitions to follower
(the announced node is not this node). -/
theorem C1_announce_leader_epoch_fencing_witness :
    Worker.announce_epoch_is_newer (some 1) 2 = true ∧
    (Worker.process_record sm_noop (0, 10) 1 false storage_self1 5 env_announce2
        sample_status 0).events =
      [Worker.RunEvent.commit (Worker.txn_with_self_esn (Worker.initial_txn 5) 2),
       Worker.RunEvent.become_follower] ∧
    ((Worker.process_record sm_noop (0, 10) 1 false storage_self1 5 env_announce2
        sample_status 0).is_leader = true ↔ (2 : Nat) = 1) := by
  have H := (C1_announce_leader_epoch_fencing sm_noop (0, 10) 1 false storage_self1 5
    env_announce2 sample_status 0 none ⟨2, 2⟩ (Worker.initial_txn 5) (some 1) _
    rfl rfl rfl rfl rfl).1 (by decide)
  exact ⟨by decide, H.1, H.2.2.2.2.1⟩

theorem apply_record_follower (sm : Worker.StateMachineModel) (range : Nat × Nat)
    (storage : Worker.Storage) (lsn : Nat) (envelope : Worker.Envelope)
    (status : Worker.PartitionProcessorStatus) (now : Nat)
    (hsm : ∀ c, (sm c false).2 = []) :
    (Worker.apply_record sm range false storage lsn envelope status now).actions = [] ∧
    (∀ c b, (Worker.apply_record sm range false storage lsn envelope status now).sm_call =
      some (c, b) → b = false) := by
  constructor
  · unfold Worker.apply_record
    (repeat' split) <;> try simp_all
    all_goals ((repeat' split) <;> simp_all)
  · intro c b h
    unfold Worker.apply_record at h
    (repeat' split at h) <;> try simp_all
    all_goals ((repeat' split at h) <;> simp_all)

/-- C7 counterexample: on a record that causes no leadership change, the main
loop drains the action collector into `leadership_state.handle_actions`
unconditionally — here the processor is a follower and the
`handle_actions` call still happens, refuting "actions are drained into
leadership.handle_actions only if the processor is leader". -/
theorem C7_follower_drain_counterexample :
    (Worker.process_record sm_noop (0, 10) 1 false storage_empty 5 sample_other_env
        sample_status 0).is_leader = false ∧
    Worker.RunEvent.handle_actions [] ∈
      (Worker.process_record sm_noop (0, 10) 1 false storage_empty 5 sample_other_env
        sample_status 0).events := by
  decide

/-- C7 (amended): while the processor is in follower mode no action is ever
dispatched to actuators — the state machine is invoked with
`is_leader = false` (and, per spec 4.2, then collects no actions), the
collector handed to `handle_actions` is therefore empty, and the follower
leadership state dispatches nothing; the drain itself, however, happens
unconditionally after the commit. -/
theorem C7_follower_no_action_dispatch
    (sm : Worker.StateMachineModel) (range : Nat × Nat) (my_node_id : Nat)
    (storage : Worker.Storage) (lsn : Nat) (envelope : Worker.Envelope)
    (status : Worker.PartitionProcessorStatus) (now : Nat) (r : Worker.RunResult)
    (hsm : ∀ c, (sm c false).2 = [])
    (hr : Worker.process_record sm range my_node_id false storage lsn envelope
        status now = r) :
    r.dispatched = [] ∧
    (∀ c b, r.sm_call = some (c, b) → b = false) ∧
    (∀ acts, Worker.RunEvent.handle_actions acts ∈ r.events → acts = []) := by
  subst hr
  have ha := apply_record_follower sm range storage lsn envelope status now hsm
  unfold Worker.process_record
  dsimp only
  split
  · exact ⟨rfl, fun c b h => ha.2 c b h, fun acts h => by simp at h⟩
  · split
    · exact ⟨rfl, fun c b h => ha.2 c b h, fun acts h => by simp at h⟩
    · exact ⟨rfl, fun c b h => ha.2 c b h, fun acts h => by simp at h⟩
  · refine ⟨rfl, fun c b h => ha.2 c b h, fun acts h => ?_⟩
    simp only [List.mem_cons, List.not_mem_nil, or_false] at h
    rcases h with h | h
    · exact absurd h (by simp)
    · rw [Worker.RunEvent.handle_actions.injEq] at h
      rw [h, ha.1]

/-- C7 witness: a follower applying an ordinary record with a state machine
that only collects actions as leader dispatches nothing. -/
theorem C7_follower_no_action_dispatch_witness :
    (Worker.process_record sm_leader_only (0, 10) 1 false storage_empty 5
        sample_other_env sample_status 0).dispatched = [] ∧
    Worker.RunEvent.handle_actions [] ∈
      (Worker.process_record sm_leader_only (0, 10) 1 false storage_empty 5
        sample_other_env sample_status 0).events :=
  ⟨(C7_follower_no_action_dispatch sm_leader_only (0, 10) 1 storage_empty 5
      sample_other_env sample_status 0 _ (fun _ => rfl) rfl).1,
   by decide⟩

namespace Invoker

theorem terminal_from_hyper_ne_continue {T : Type} (e : HyperError) (v : T) :
    terminal_from_hyper e ≠ .Continue v := by
  unfold terminal_from_hyper
  split <;> simp

theorem response_stream_loop_ne_continue (evs : List BodyEvent) :
    ∀ idx, (response_stream_loop idx evs).state ≠ .Continue () := by
  induction evs with
  | nil => intro idx; simp [response_stream_loop]
  | cons e rest ih =>
    intro idx
    cases e with
    | msg m =>
      cases m with
      | Start => simp [response_stream_loop, handle_message]
      | Completion => simp [response_stream_loop, handle_message]
      | Suspension es => simp [response_stream_loop, handle_message]
      | UnparsedEntry raw =>
        simpa [response_stream_loop, handle_message] using ih (idx + 1)
    | decode_error => simp [response_stream_loop]
    | hyper_error e =>
      simpa [response_stream_loop] using terminal_from_hyper_ne_continue e ()

theorem response_stream_loop_outputs_not_terminal (evs : List BodyEvent) :
    ∀ idx o, o ∈ (response_stream_loop idx evs).outputs → o.is_terminal = false := by
  induction evs with
  | nil => intro idx o h; simp [response_stream_loop] at h
  | cons e rest ih =>
    intro idx o h
    cases e with
    | msg m =>
      cases m with
      | Start => simp [response_stream_loop, handle_message] at h
      | Completion => simp [response_stream_loop, handle_message] at h
      | Suspension es => simp [response_stream_loop, handle_message] at h
      | UnparsedEntry raw =>
        simp only [response_stream_loop, handle_message, List.cons_append,
          List.nil_append, List.mem_cons] at h
        rcases h with h | h
        · rw [h]; rfl
        · exact ih (idx + 1) o h
    | decode_error => simp [response_stream_loop] at h
    | hyper_error e => simp [response_stream_loop] at h

theorem bidi_stream_loop_outputs_not_terminal (evs : List BidiEvent) :
    ∀ idx r, bidi_stream_loop idx evs = some r →
      ∀ o ∈ r.outputs, o.is_terminal = false := by
  induction evs with
  | nil => intro idx r h; simp [bidi_stream_loop] at h
  | cons e rest ih =>
    intro idx r h o ho
    cases e with
    | completion sr =>
      simp only [bidi_stream_loop] at h
      cases hw : write sr with
      | ok u => rw [hw] at h; exact ih idx r h o ho
      | error err =>
        rw [hw] at h
        simp only [Option.some.injEq] at h
        subst h
        simp at ho
    | completions_closed =>
      simp only [bidi_stream_loop, Option.some.injEq] at h
      subst h
      simp at ho
    | body be =>
      cases be with
      | msg m =>
        cases m with
        | Start =>
          simp only [bidi_stream_loop, handle_message, Option.some.injEq] at h
          subst h; simp at ho
        | Completion =>
          simp only [bidi_stream_loop, handle_message, Option.some.injEq] at h
          subst h; simp at ho
        | Suspension es =>
          simp only [bidi_stream_loop, handle_message, Option.some.injEq] at h
          subst h; simp at ho
        | UnparsedEntry raw =>
          simp only [bidi_stream_loop, handle_message] at h
          cases hb : bidi_stream_loop (idx + 1) rest with
          | none => rw [hb] at h; simp at h
          | some r2 =>
            rw [hb] at h
            simp only [Option.some.injEq] at h
            subst h
            simp only [List.cons_append, List.nil_append, List.mem_cons] at ho
            rcases ho with ho | ho
            · rw [ho]; rfl
            · exact ih (idx + 1) r2 hb o ho
      | decode_error =>
        simp only [bidi_stream_loop, Option.some.injEq] at h
        subst h; simp at ho
      | hyper_error e =>
        simp only [bidi_stream_loop, Option.some.injEq] at h
        subst h; simp at ho
    | body_end =>
      simp only [bidi_stream_loop, Option.some.injEq] at h
      subst h; simp at ho

end Invoker

namespace Invoker

theorem run_internal_completed (env : RunEnv) :
    ∀ r, run_internal env = some r →
      r.state ≠ .Continue () ∧ ∀ o ∈ r.outputs, o.is_terminal = false := by
  intro r h
  unfold run_internal at h
  split at h
  · simp only [Option.some.injEq] at h
    subst h
    exact ⟨by simp, by simp⟩
  · split at h
    · simp only [Option.some.injEq] at h
      subst h
      exact ⟨by simp, by simp⟩
    · split at h
      · simp at h
      · simp only [Option.some.injEq] at h
        subst h
        exact ⟨by simp, by simp⟩
      · simp only [Option.some.injEq] at h
        subst h
        exact ⟨by simp, by simp⟩
      · simp only [Option.some.injEq] at h
        subst h
        exact ⟨by simp, by simp⟩
      · next idx1 heqwait =>
        split at h
        · cases hb : bidi_stream_loop idx1 env.bidi_events with
          | none => rw [hb] at h; simp at h
          | some rb =>
            rw [hb] at h
            dsimp only at h
            cases hs : rb.state with
            | Continue v =>
              rw [hs] at h
              dsimp only at h
              simp only [Option.some.injEq] at h
              subst h
              refine ⟨response_stream_loop_ne_continue _ _, ?_⟩
              intro o ho
              rcases List.mem_append.mp ho with ho | ho
              · exact bidi_stream_loop_outputs_not_terminal _ _ _ hb o ho
              · exact response_stream_loop_outputs_not_terminal _ _ o ho
            | Closed =>
              rw [hs] at h
              dsimp only at h
              simp only [Option.some.injEq] at h
              subst h
              exact ⟨by rw [hs]; simp,
                fun o ho => bidi_stream_loop_outputs_not_terminal _ _ _ hb o ho⟩
            | Suspended es =>
              rw [hs] at h
              dsimp only at h
              simp only [Option.some.injEq] at h
              subst h
              exact ⟨by rw [hs]; simp,
                fun o ho => bidi_stream_loop_outputs_not_terminal _ _ _ hb o ho⟩
            | Failed e =>
              rw [hs] at h
              dsimp only at h
              simp only [Option.some.injEq] at h
              subst h
              exact ⟨by rw [hs]; simp,
                fun o ho => bidi_stream_loop_outputs_not_terminal _ _ _ hb o ho⟩
        · simp only [Option.some.injEq] at h
          subst h
          exact ⟨response_stream_loop_ne_continue _ _,
            fun o ho => response_stream_loop_outputs_not_terminal _ _ o ho⟩

end Invoker

namespace Invoker

theorem filter_terminal_nil (l : List InvocationTaskOutputInner)
    (hl : ∀ o ∈ l, o.is_terminal = false) :
    l.filter InvocationTaskOutputInner.is_terminal = [] := by
  induction l with
  | nil => rfl
  | cons a t ih =>
    have ha := hl a (by simp)
    rw [List.filter_cons, ha]
    simp only [Bool.false_eq_true, if_false]
    exact ih (fun o ho => hl o (by simp [ho]))

end Invoker

/-- C3: over every completed execution, `run_internal` never yields the
`Continue` variant at top level, and `run` sends exactly one terminal output
to the invoker channel — the last one sent — and it is one of `Closed`,
`Suspended` or `Failed`. -/
theorem C3_run_reports_exactly_one_terminal (env : Invoker.RunEnv) :
    (∀ r, Invoker.run_internal env = some r → r.state ≠ .Continue ()) ∧
    (∀ outs, Invoker.run env = some outs →
      (outs.filter Invoker.InvocationTaskOutputInner.is_terminal).length = 1 ∧
      ∃ o, outs.getLast? = some o ∧
        (o = .Closed ∨ (∃ es, o = .Suspended es) ∨ (∃ e, o = .Failed e))) := by
  constructor
  · intro r h
    exact (Invoker.run_internal_completed env r h).1
  · intro outs h
    unfold Invoker.run at h
    cases hri : Invoker.run_internal env with
    | none => rw [hri] at h; simp at h
    | some r =>
      rw [hri] at h
      dsimp only at h
      have hr := Invoker.run_internal_completed env r hri
      have hfilter := Invoker.filter_terminal_nil r.outputs hr.2
      cases hs : r.state with
      | Continue v =>
        cases v
        exact absurd hs hr.1
      | Closed =>
        rw [hs] at h
        dsimp only [Invoker.terminal_output] at h
        simp only [Option.some.injEq] at h
        subst h
        refine ⟨?_, .Closed, List.getLast?_concat _, Or.inl rfl⟩
        rw [List.filter_append, hfilter]
        rfl
      | Suspended es =>
        rw [hs] at h
        dsimp only [Invoker.terminal_output] at h
        simp only [Option.some.injEq] at h
        subst h
        refine ⟨?_, .Suspended es, List.getLast?_concat _, Or.inr (Or.inl ⟨es, rfl⟩)⟩
        rw [List.filter_append, hfilter]
        rfl
      | Failed e =>
        rw [hs] at h
        dsimp only [Invoker.terminal_output] at h
        simp only [Option.some.injEq] at h
        subst h
        refine ⟨?_, .Failed e, List.getLast?_concat _, Or.inr (Or.inr ⟨e, rfl⟩)⟩
        rw [List.filter_append, hfilter]
        rfl

/-- C3 witness: a one-entry journal with a clean 200 response and a single
inbound entry frame completes with outputs `NewEntry` then `Closed`; exactly
one terminal output. -/
theorem C3_run_reports_exactly_one_terminal_witness :
    Invoker.run env_c3 = some [.NewEntry 1 21, .Closed] ∧
    (([Invoker.InvocationTaskOutputInner.NewEntry 1 21,
        Invoker.InvocationTaskOutputInner.Closed].filter
      Invoker.InvocationTaskOutputInner.is_terminal).length = 1) :=
  ⟨rfl, ((C3_run_reports_exactly_one_terminal env_c3).2
      [.NewEntry 1 21, .Closed] rfl).1⟩

namespace Invoker

theorem response_stream_loop_entries (raws : List Nat) :
    ∀ idx, response_stream_loop idx
        (raws.map (fun raw => BodyEvent.msg (.UnparsedEntry raw))) =
      ⟨.Closed, idx + raws.length, new_entry_outputs idx raws⟩ := by
  induction raws with
  | nil => intro idx; simp [response_stream_loop, new_entry_outputs]
  | cons raw rest ih =>
    intro idx
    have harith : idx + 1 + rest.length = idx + (rest.length + 1) := by omega
    simp [response_stream_loop, handle_message, new_entry_outputs, ih (idx + 1), harith]

theorem response_stream_loop_entries_then_hyper (raws : List Nat) :
    ∀ idx (e : HyperError) (rest : List BodyEvent),
      (response_stream_loop idx
          (raws.map (fun raw => BodyEvent.msg (.UnparsedEntry raw)) ++
            BodyEvent.hyper_error e :: rest)).state = terminal_from_hyper e := by
  induction raws with
  | nil => intro idx e rest; simp [response_stream_loop]
  | cons raw rest2 ih =>
    intro idx e rest
    simp only [List.map_cons, List.cons_append, response_stream_loop, handle_message]
    exact ih (idx + 1) e rest

end Invoker

/-- C4: a transport (hyper) error surfacing in the response stream ends the
task `Closed` when the h2 reason found in its cause chain is `NO_ERROR`, and
`Failed(Network)` for any other transport error — the same mapping applies
to an error of the request future; and a response body that ends after only
entry frames (no Suspension received) ends the task `Closed`. -/
theorem C4_transport_error_and_end_of_body (idx : Nat) (raws : List Nat)
    (e : Invoker.HyperError) (rest : List Invoker.BodyEvent) :
    ((Invoker.response_stream_loop idx
        (raws.map (fun raw => Invoker.BodyEvent.msg (.UnparsedEntry raw)) ++
          Invoker.BodyEvent.hyper_error e :: rest)).state =
      if Invoker.h2_reason e = .NO_ERROR then .Closed else .Failed (.Network e)) ∧
    (Invoker.handle_response_head (.hyper_error e) =
      if Invoker.h2_reason e = .NO_ERROR then .Closed else .Failed (.Network e)) ∧
    ((Invoker.response_stream_loop idx
        (raws.map (fun raw => Invoker.BodyEvent.msg (.UnparsedEntry raw)))).state =
      .Closed) := by
  refine ⟨?_, rfl, ?_⟩
  · rw [Invoker.response_stream_loop_entries_then_hyper raws idx e rest]
    rfl
  · rw [Invoker.response_stream_loop_entries raws idx]

/-- C5: `handle_message` fails with `UnexpectedMessage` on inbound `Start`
and `Completion`, suspends on `Suspension(entries)` with those entries, and
on an `Entry` emits `NewEntry` indexed by the current `next_journal_index`
and increments it — so a body of consecutive entry frames is emitted with
consecutive indexes starting at the current index. -/
theorem C5_handle_message_mapping (idx : Nat) (es : List Nat) (raw : Nat)
    (raws : List Nat) :
    Invoker.handle_message idx .Start =
      ⟨.Failed (.UnexpectedMessage .Start), idx, []⟩ ∧
    Invoker.handle_message idx .Completion =
      ⟨.Failed (.UnexpectedMessage .Completion), idx, []⟩ ∧
    Invoker.handle_message idx (.Suspension es) = ⟨.Suspended es, idx, []⟩ ∧
    Invoker.handle_message idx (.UnparsedEntry raw) =
      ⟨.Continue (), idx + 1, [.NewEntry idx raw]⟩ ∧
    (Invoker.response_stream_loop idx
        (raws.map (fun r => Invoker.BodyEvent.msg (.UnparsedEntry r)))).outputs =
      Invoker.new_entry_outputs idx raws ∧
    (Invoker.response_stream_loop idx
        (raws.map (fun r => Invoker.BodyEvent.msg (.UnparsedEntry r)))).idx =
      idx + raws.length := by
  refine ⟨rfl, rfl, rfl, rfl, ?_, ?_⟩ <;>
    rw [Invoker.response_stream_loop_entries raws idx]

namespace Invoker

theorem write_journal_entries_ok_length (entries : List Nat) :
    ∀ (send_results : Nat → Option SendError) (idx idx2 : Nat),
      write_journal_entries send_results idx entries = .ok idx2 →
      idx2 = idx + entries.length := by
  induction entries with
  | nil =>
    intro sr idx idx2 h
    simp only [write_journal_entries, Except.ok.injEq] at h
    simp only [List.length_nil]
    omega
  | cons a t ih =>
    intro sr idx idx2 h
    simp only [write_journal_entries] at h
    cases hw : write (sr idx) with
    | ok u =>
      rw [hw] at h
      have hlen := ih sr (idx + 1) idx2 h
      simp only [List.length_cons]
      omega
    | error e => rw [hw] at h; simp at h

end Invoker

/-- C6: when the replay loop completes (returns `Continue`), starting from
`next_journal_index = 0` over a journal stream yielding the journal's
entries, the final `next_journal_index` equals
`journal_metadata.journal_size` — the invariant the code checks with its
`debug_assert_eq!`. -/
theorem C6_replay_reaches_journal_size
    (send_results : Nat → Option Invoker.SendError) (response_after : Nat)
    (response_head : Option Invoker.ResponseHead) (meta : Invoker.JournalMetadata)
    (entries : List Nat) (idx : Nat)
    (hsize : entries.length = meta.journal_size)
    (hrun : Invoker.wait_response_and_replay_end_loop send_results response_after
        response_head 0 entries = some (.Continue idx)) :
    idx = meta.journal_size := by
  unfold Invoker.wait_response_and_replay_end_loop at hrun
  cases response_head with
  | none =>
    dsimp only at hrun
    cases hw : Invoker.write_journal_entries send_results 0 entries with
    | ok i => rw [hw] at hrun; simp at hrun
    | error e => rw [hw] at hrun; simp at hrun
  | some head =>
    dsimp only at hrun
    cases hw : Invoker.write_journal_entries send_results 0
        (entries.take response_after) with
    | error e => rw [hw] at hrun; simp at hrun
    | ok idx1 =>
      rw [hw] at hrun
      dsimp only at hrun
      cases hh : Invoker.handle_response_head head with
      | Continue v =>
        rw [hh] at hrun
        dsimp only at hrun
        cases hw2 : Invoker.write_journal_entries send_results idx1
            (entries.drop response_after) with
        | error e => rw [hw2] at hrun; simp at hrun
        | ok idx2 =>
          rw [hw2] at hrun
          simp only [Option.some.injEq, Invoker.TerminalLoopState.Continue.injEq] at hrun
          have h1 := Invoker.write_journal_entries_ok_length _ send_results 0 idx1 hw
          have h2 := Invoker.write_journal_entries_ok_length _ send_results idx1 idx2 hw2
          have h3 : (entries.take response_after).length +
              (entries.drop response_after).length = entries.length := by
            rw [← List.length_append, List.take_append_drop]
          omega
      | Closed => rw [hh] at hrun; simp at hrun
      | Suspended es => rw [hh] at hrun; simp at hrun
      | Failed e => rw [hh] at hrun; simp at hrun

/-- C6 witness: two entries replayed with the response arriving after the
first one; the loop continues with index 2, the journal size. -/
theorem C6_replay_reaches_journal_size_witness :
    ([5, 6].length = (⟨2⟩ : Invoker.JournalMetadata).journal_size) ∧
    (Invoker.wait_response_and_replay_end_loop (fun _ => none) 1
        (some (.response 200 (some 0))) 0 [5, 6] = some (.Continue 2)) ∧
    (2 = (⟨2⟩ : Invoker.JournalMetadata).journal_size) :=
  ⟨rfl, rfl,
    C6_replay_reaches_journal_size (fun _ => none) 1 (some (.response 200 (some 0)))
      ⟨2⟩ [5, 6] 2 rfl rfl⟩

namespace Ingress

theorem status_result_eq (invocation_id : Nat) (is : InvocationStatus) :
    get_output_status_result invocation_id is = claim_status_result invocation_id is := by
  cases is with
  | Free => rfl
  | Invoked m =>
    unfold get_output_status_result claim_status_result
    simp only [InvocationStatus.idempotency_key, InvocationStatus.invocation_target]
    split <;> simp_all
  | Suspended m =>
    unfold get_output_status_result claim_status_result
    simp only [InvocationStatus.idempotency_key, InvocationStatus.invocation_target]
    split <;> simp_all
  | Completed c =>
    unfold get_output_status_result claim_status_result
    simp only [InvocationStatus.idempotency_key, InvocationStatus.invocation_target]
    split <;> simp_all

end Ingress

/-- C10: `get_output` is exactly the claim's case analysis: the result is
determined by the resolved invocation's status in the claim's order (Free is
NotFound; absent idempotency key with a non-Workflow(Workflow) target is
NotSupported; Completed is Ready carrying the completed response; anything
else is NotReady), and Workflow and IdempotencyId queries that miss their
lookup table fall back to the query's deterministic invocation id. -/
theorem C10_get_output_matches_claim (det_id : Ingress.InvocationQuery → Nat)
    (store : Ingress.PartitionStorageView) (query : Ingress.InvocationQuery) :
    Ingress.get_output det_id store query = Ingress.get_output_claim det_id store query := by
  unfold Ingress.get_output Ingress.get_output_claim
  cases query with
  | Invocation iid => exact Ingress.status_result_eq _ _
  | Workflow sid =>
    dsimp only
    cases store.virtual_object_status sid <;> exact Ingress.status_result_eq _ _
  | IdempotencyId idk =>
    dsimp only
    cases store.idempotency_metadata idk <;> exact Ingress.status_result_eq _ _
